import Mathlib

/-!
Shallow embedding of the meeting-analysis text parser
(backend/text_parser.py, with the orchestrated Bedrock alternative of
backend/bedrock_extractor.py modelled at its interface), together with
theorems about the extraction and requirements-mapping pipeline.

Text is modelled as Lean strings over ASCII: Python's str.lower, str.split,
the regex classes \w, \s, \d and the case-insensitive matching flag are
embedded with their ASCII meaning, which is the fragment the parser's fixed
pattern tables actually exercise.
-/

set_option maxRecDepth 8192

namespace MeetingAnalysis

/-- ASCII whitespace recognized by Python str.split, str.strip and the
regex class backslash-s. -/
def pyIsSpace (c : Char) : Bool :=
  c == ' ' || c == '\t' || c == '\n' || c == '\r' || c == '\x0b' || c == '\x0c'

/-- Membership in the sentence-delimiter character class of dot, bang and
question mark used by re.split in the parser. -/
def isPunct (c : Char) : Bool := c == '.' || c == '!' || c == '?'

/-- Splitting a character list at maximal runs of delimiter characters,
keeping empty boundary segments, exactly as Python re.split does for a
one-or-more character-class pattern. -/
def splitSegs (p : Char → Bool) : List Char → List (List Char)
  | [] => [[]]
  | c :: cs =>
    if p c then
      match cs with
      | c2 :: _ => if p c2 then splitSegs p cs else [] :: splitSegs p cs
      | [] => [[], []]
    else
      match splitSegs p cs with
      | s :: rest => (c :: s) :: rest
      | [] => [[c]]

/-- Number of maximal runs of delimiter characters in a character list
(counted at the last character of each run, mirroring splitSegs). -/
def punctRunCount (p : Char → Bool) : List Char → Nat
  | [] => 0
  | c :: cs =>
    if p c then
      match cs with
      | c2 :: _ => if p c2 then punctRunCount p cs else 1 + punctRunCount p cs
      | [] => 1
    else punctRunCount p cs

/-- Python re.split of a string on runs of characters of the given class. -/
def pyReSplit (p : Char → Bool) (s : String) : List String :=
  (splitSegs p s.data).map String.mk

/-- Python str.split with no argument: maximal runs of non-whitespace
characters, empty pieces discarded. -/
def pySplitWs (s : String) : List String :=
  ((splitSegs pyIsSpace s.data).filter (fun seg => !seg.isEmpty)).map String.mk

/-- Python str.strip: removes leading and trailing whitespace. -/
def pyStrip (s : String) : String :=
  String.mk (((s.data.dropWhile pyIsSpace).reverse.dropWhile pyIsSpace).reverse)

/-- Python str.lower over the ASCII fragment. -/
def pyLower (s : String) : String :=
  String.mk (s.data.map Char.toLower)

/-- Whether the needle occurs as a contiguous substring of the haystack,
Python's in operator on strings. -/
def subAt (needle : List Char) : List Char → Bool
  | [] => needle.isEmpty
  | c :: cs => needle.isPrefixOf (c :: cs) || subAt needle cs

/-- Python needle in haystack for strings. -/
def pyIn (needle hay : String) : Bool := subAt needle.data hay.data

/-- Little-endian base-10 digits of a natural number; the first argument is
fuel that makes the recursion structural. -/
def natDigitsAux : Nat → Nat → List Nat
  | 0, _ => []
  | _ + 1, 0 => []
  | fuel + 1, n + 1 => ((n + 1) % 10) :: natDigitsAux fuel ((n + 1) / 10)

/-- Little-endian base-10 digits of a natural number (empty for zero). -/
def natDigits (n : Nat) : List Nat := natDigitsAux n n

/-- The decimal digit character for a value below ten. -/
def digitChar (d : Nat) : Char :=
  match d with
  | 0 => '0' | 1 => '1' | 2 => '2' | 3 => '3' | 4 => '4'
  | 5 => '5' | 6 => '6' | 7 => '7' | 8 => '8' | _ => '9'

/-- The numeric value of a decimal digit character. -/
def charVal (c : Char) : Nat :=
  match c with
  | '0' => 0 | '1' => 1 | '2' => 2 | '3' => 3 | '4' => 4
  | '5' => 5 | '6' => 6 | '7' => 7 | '8' => 8 | _ => 9

/-- Python format specification 03d: decimal digits, zero-padded on the
left to at least three characters. -/
def pad3 (n : Nat) : String :=
  let ds := (natDigits n).reverse
  String.mk ((List.replicate (3 - ds.length) 0 ++ ds).map digitChar)

/-- The requirement identifier REQ-NNN built by the requirements mapper. -/
def reqId (n : Nat) : String := "REQ-" ++ pad3 n

/-- Value of a little-endian digit list. -/
def ofDigits10 (ds : List Nat) : Nat := ds.foldr (fun d acc => d + 10 * acc) 0

/-- Reading back the number encoded by pad3. -/
def unpad (s : String) : Nat := ofDigits10 ((s.data.map charVal).reverse)

theorem ofDigits10_natDigitsAux (fuel : Nat) :
    ∀ n, n ≤ fuel → ofDigits10 (natDigitsAux fuel n) = n := by
  induction fuel with
  | zero => intro n h; interval_cases n; rfl
  | succ fuel ih =>
    intro n h
    match n with
    | 0 => rfl
    | n + 1 =>
      have hdiv : (n + 1) / 10 ≤ fuel := by
        have := Nat.div_lt_self (Nat.succ_pos n) (by norm_num : 1 < 10)
        omega
      simp only [natDigitsAux, ofDigits10, List.foldr_cons]
      have := ih ((n + 1) / 10) hdiv
      simp only [ofDigits10] at this
      rw [this]
      omega

theorem ofDigits10_natDigits (n : Nat) : ofDigits10 (natDigits n) = n :=
  ofDigits10_natDigitsAux n n (Nat.le_refl n)

theorem natDigitsAux_lt_ten (fuel : Nat) :
    ∀ n, ∀ d ∈ natDigitsAux fuel n, d < 10 := by
  induction fuel with
  | zero => intro n d hd; simp [natDigitsAux] at hd
  | succ fuel ih =>
    intro n d hd
    match n with
    | 0 => simp [natDigitsAux] at hd
    | n + 1 =>
      simp only [natDigitsAux, List.mem_cons] at hd
      rcases hd with h | h
      · subst h; exact Nat.mod_lt _ (by norm_num)
      · exact ih _ _ h

theorem charVal_digitChar : ∀ d, d < 10 → charVal (digitChar d) = d := by decide

theorem ofDigits10_append_zeros (ds : List Nat) (k : Nat) :
    ofDigits10 (ds ++ List.replicate k 0) = ofDigits10 ds := by
  induction ds with
  | nil =>
    simp only [List.nil_append]
    induction k with
    | zero => rfl
    | succ k ihk => simpa [List.replicate_succ, ofDigits10, List.foldr_cons] using ihk
  | cons d ds ih => simp [ofDigits10, List.foldr_cons] at ih ⊢; omega

theorem unpad_pad3 (n : Nat) : unpad (pad3 n) = n := by
  have hlt : ∀ d ∈ List.replicate (3 - (natDigits n).reverse.length) 0
      ++ (natDigits n).reverse, d < 10 := by
    intro d hd
    rcases List.mem_append.1 hd with h | h
    · simp [List.eq_of_mem_replicate h]
    · exact natDigitsAux_lt_ten n n d (List.mem_reverse.1 h)
  unfold unpad pad3
  simp only [List.map_map]
  rw [List.map_congr_left (fun d hd => by
    simp only [Function.comp_apply]; exact charVal_digitChar d (hlt d hd))]
  rw [show (fun d : Nat => d) = id from rfl, List.map_id, List.reverse_append,
    List.reverse_reverse, List.reverse_replicate]
  rw [ofDigits10_append_zeros]
  exact ofDigits10_natDigits n

theorem pad3_injective : Function.Injective pad3 :=
  Function.LeftInverse.injective unpad_pad3

theorem reqId_injective : Function.Injective reqId := by
  intro a b h
  apply pad3_injective
  have hd : ("REQ-" ++ pad3 a).data = ("REQ-" ++ pad3 b).data := congrArg String.data h
  simp only [String.data_append] at hd
  have := List.append_cancel_left hd
  cases hp : pad3 a with
  | mk la =>
    cases hq : pad3 b with
    | mk lb => simp_all

/-- Syntax of the regular expressions appearing in the parser's pattern
tables: character classes, concatenation, prioritized alternation, greedy or
lazy repetition, numbered capture groups and the word-boundary assertion. -/
inductive RE where
  | eps : RE
  | cls : (Char → Bool) → RE
  | cat : RE → RE → RE
  | alt : RE → RE → RE
  | rep : Bool → RE → RE
  | grp : Nat → RE → RE
  | wb : RE

/-- Matcher state: the previously consumed character (for word boundaries),
the remaining input, and the captures recorded so far. -/
structure MSt where
  prev : Option Char
  rest : List Char
  caps : List (Nat × String)

/-- The regex class backslash-w over ASCII: letters, digits, underscore. -/
def isWordChar (c : Char) : Bool := c.isAlpha || c.isDigit || c == '_'

/-- Word-boundary test between the previously consumed character and the
next input character. -/
def atBoundary (prev : Option Char) (rest : List Char) : Bool :=
  (match prev with | some c => isWordChar c | none => false)
    != (match rest with | c :: _ => isWordChar c | [] => false)

/-- Backtracking matcher: all end states reachable by matching the pattern
at the front of the state's input, in backtracking priority order (the head
is the match Python's engine commits to).  Greedy repetition prefers longer
matches, lazy repetition shorter ones; repetition bodies must consume input,
which agrees with Python on the parser's patterns since none of their
repetition bodies can match the empty string.  The fuel argument makes the
recursion structural; reFuel below supplies enough for the search to run to
completion. -/
def reMatch (fuel : Nat) (r : RE) (st : MSt) : List MSt :=
  match fuel with
  | 0 => []
  | fuel + 1 =>
    match r with
    | .eps => [st]
    | .cls p =>
      match st.rest with
      | [] => []
      | c :: cs => if p c then [⟨some c, cs, st.caps⟩] else []
    | .cat a b => (reMatch fuel a st).flatMap (reMatch fuel b)
    | .alt a b => reMatch fuel a st ++ reMatch fuel b st
    | .rep greedy a =>
      let more := (reMatch fuel a st).flatMap (fun st' =>
        if st'.rest.length < st.rest.length then reMatch fuel (.rep greedy a) st' else [])
      if greedy then more ++ [st] else st :: more
    | .grp n a =>
      (reMatch fuel a st).map (fun st' =>
        { st' with
          caps := (n, String.mk (st.rest.take (st.rest.length - st'.rest.length))) :: st'.caps })
    | .wb => if atBoundary st.prev st.rest then [st] else []

/-- Size of a pattern, used to budget matcher fuel. -/
def reSize : RE → Nat
  | .eps => 1
  | .wb => 1
  | .cls _ => 1
  | .cat a b => reSize a + reSize b + 1
  | .alt a b => reSize a + reSize b + 1
  | .rep _ a => reSize a + 1
  | .grp _ a => reSize a + 1

/-- Fuel sufficient for the matcher's search on the given input length. -/
def reFuel (r : RE) (len : Nat) : Nat := (len + 2) * (reSize r + 2)

/-- First (leftmost-committed) match of the pattern at this position, if any. -/
def reFirst (r : RE) (prev : Option Char) (rest : List Char) : Option MSt :=
  (reMatch (reFuel r (rest.length + 1)) r ⟨prev, rest, []⟩).head?

/-- Scan loop of re.finditer: try the pattern at each position from the left,
emit each match's captures, and resume after the matched text (advancing one
character past a zero-width match, as Python does). -/
def findIterAux (r : RE) : Nat → Option Char → List Char → List (List (Nat × String))
  | 0, _, _ => []
  | fuel + 1, prev, rest =>
    match reFirst r prev rest with
    | some st =>
      if st.rest.length < rest.length then
        st.caps :: findIterAux r fuel st.prev st.rest
      else
        match rest with
        | [] => [st.caps]
        | c :: cs => st.caps :: findIterAux r fuel (some c) cs
    | none =>
      match rest with
      | [] => []
      | c :: cs => findIterAux r fuel (some c) cs

/-- All matches of the pattern over the text in re.finditer order, each
reported as its list of capture-group values. -/
def reFindIter (r : RE) (s : String) : List (List (Nat × String)) :=
  findIterAux r (s.data.length + 1) none s.data

/-- The value of one capture group of a match. -/
def capGet (caps : List (Nat × String)) (i : Nat) : Option String :=
  (caps.find? (fun p => p.1 == i)).map (fun p => p.2)

/-- re.findall for a pattern without capture groups: the full text of every
match, obtained by wrapping the pattern in group zero. -/
def reFindAll (r : RE) (s : String) : List String :=
  (reFindIter (.grp 0 r) s).filterMap (fun caps => capGet caps 0)

/-- A single literal character. -/
def chrRE (c : Char) : RE := .cls (fun x => x == c)

/-- A single literal character under re.IGNORECASE. -/
def chriRE (c : Char) : RE := .cls (fun x => x.toLower == c.toLower)

/-- A literal string. -/
def strLit (s : String) : RE := s.data.foldr (fun c r => .cat (chrRE c) r) .eps

/-- A literal string under re.IGNORECASE. -/
def strLiti (s : String) : RE := s.data.foldr (fun c r => .cat (chriRE c) r) .eps

/-- Concatenation of a pattern sequence. -/
def seqRE (l : List RE) : RE := l.foldr .cat .eps

/-- Alternation with left-to-right priority. -/
def altRE (l : List RE) : RE :=
  match l with
  | [] => .cls (fun _ => false)
  | x :: xs => xs.foldl .alt x

/-- Greedy one-or-more repetition. -/
def plusG (r : RE) : RE := .cat r (.rep true r)

/-- Lazy one-or-more repetition. -/
def plusL (r : RE) : RE := .cat r (.rep false r)

/-- Greedy zero-or-one repetition. -/
def optG (r : RE) : RE := .alt r .eps

/-- Closure of a character class under re.IGNORECASE: a character matches if
either of its case foldings is in the class. -/
def ciCls (p : Char → Bool) : Char → Bool := fun c => p c || p c.toLower || p c.toUpper

/-- The regex class backslash-d of decimal digits. -/
def digitRE : RE := .cls Char.isDigit

/-- The class of the local part of the email pattern. -/
def emailLocalC (c : Char) : Bool :=
  c.isAlpha || c.isDigit || c == '.' || c == '_' || c == '%' || c == '+' || c == '-'

/-- The class of the domain part of the email pattern. -/
def emailDomC (c : Char) : Bool := c.isAlpha || c.isDigit || c == '.' || c == '-'

/-- The top-level-domain class of the email pattern; the source class
[A-Z|a-z] literally includes the bar character. -/
def tldC (c : Char) : Bool := c.isAlpha || c == '|'

/-- Email pattern of extract_entities. -/
def emailRE : RE :=
  seqRE [.wb, plusG (.cls emailLocalC), chrRE '@', plusG (.cls emailDomC), chrRE '.',
    .cls tldC, .cls tldC, .rep true (.cls tldC), .wb]

/-- The optional separator class of the phone pattern. -/
def dashDotC (c : Char) : Bool := c == '-' || c == '.'

/-- Phone pattern of extract_entities. -/
def phoneRE : RE :=
  seqRE [.wb, digitRE, digitRE, digitRE, optG (.cls dashDotC),
    digitRE, digitRE, digitRE, optG (.cls dashDotC),
    digitRE, digitRE, digitRE, digitRE, .wb]

/-- URL pattern of extract_entities. -/
def urlRE : RE :=
  seqRE [strLit "http", optG (chrRE 's'), strLit "://", plusG (.cls (fun c => !pyIsSpace c))]

/-- Currency pattern of extract_entities. -/
def currencyRE : RE :=
  seqRE [chrRE '$', plusG digitRE,
    .rep true (seqRE [chrRE ',', digitRE, digitRE, digitRE]),
    optG (seqRE [chrRE '.', digitRE, digitRE])]

/-- Capitalized-word-sequence pattern of extract_entities. -/
def capWordRE : RE :=
  seqRE [.wb, .cls Char.isUpper, plusG (.cls Char.isLower),
    .rep true (seqRE [plusG (.cls pyIsSpace), .cls Char.isUpper, plusG (.cls Char.isLower)]),
    .wb]

/-- An extracted named entity. -/
structure Entity where
  type : String
  value : String
deriving DecidableEq, Repr

/-- Stoplist of capitalized words excluded from entity extraction. -/
def entityStop : List String := ["The", "This", "That", "There", "They"]

/-- Named-entity extraction: five pattern scans concatenated in source order,
with the capitalized-word scan truncated to its first ten matches and then
filtered by length and stoplist. -/
def extract_entities (text : String) : List Entity :=
  ((reFindAll emailRE text).map (fun v => Entity.mk "EMAIL" v))
  ++ ((reFindAll phoneRE text).map (fun v => Entity.mk "PHONE" v))
  ++ ((reFindAll urlRE text).map (fun v => Entity.mk "URL" v))
  ++ ((reFindAll currencyRE text).map (fun v => Entity.mk "CURRENCY" v))
  ++ (((reFindAll capWordRE text).take 10).filter
        (fun cap => decide (2 < cap.length) && !(entityStop.contains cap))).map
      (fun v => Entity.mk "PERSON_OR_PLACE" v)

/-- The stop-word set of extract_key_phrases. -/
def stopWords : List String :=
  ["the", "a", "an", "and", "or", "but", "in", "on", "at", "to", "for", "of",
   "with", "by", "is", "are", "was", "were", "be", "been", "have", "has", "had",
   "do", "does", "did", "will", "would", "should", "could", "may", "might",
   "must", "can"]

/-- Tokens matched by the word pattern: maximal runs of word characters. -/
def wordTokens (s : String) : List String :=
  ((splitSegs (fun c => !isWordChar c) s.data).filter (fun seg => !seg.isEmpty)).map String.mk

/-- The meaningful words of extract_key_phrases: lowercased tokens that are
not stop words and are longer than three characters. -/
def meaningfulWords (text : String) : List String :=
  (wordTokens (pyLower text)).filter
    (fun w => !(stopWords.contains w) && decide (3 < w.length))

/-- One counting step of the frequency dictionary: increment the entry of the
word, or append a fresh entry, preserving insertion order. -/
def bumpFreq (w : String) : List (String × Nat) → List (String × Nat)
  | [] => [(w, 1)]
  | (x, n) :: rest => if x == w then (x, n + 1) :: rest else (x, n) :: bumpFreq w rest

/-- Frequency counting in first-occurrence order, as a Python dict built by
successive increments. -/
def countFreq (ws : List String) : List (String × Nat) :=
  ws.foldl (fun acc w => bumpFreq w acc) []

/-- Comparator of Python sorted with frequency key and reverse order: an
entry precedes another when its frequency is at least as large. -/
def freqGE (a b : String × Nat) : Prop := b.2 ≤ a.2

instance : DecidableRel freqGE := fun a b => Nat.decLe b.2 a.2

instance : IsTotal (String × Nat) freqGE :=
  ⟨fun a b => (Nat.le_total b.2 a.2).imp (fun h => h) (fun h => h)⟩

instance : IsTrans (String × Nat) freqGE :=
  ⟨fun _ _ _ hab hbc => Nat.le_trans hbc hab⟩

/-- Python's stable sorted by descending frequency, as insertion sort with
the freqGE comparator. -/
def sortByFreqDesc (l : List (String × Nat)) : List (String × Nat) :=
  l.insertionSort freqGE

/-- Key-phrase extraction: frequency-sorted meaningful words, truncated to
ten and then filtered to frequencies above one (the source's order of
truncation and filtering). -/
def extract_key_phrases (text : String) : List String :=
  (((sortByFreqDesc (countFreq (meaningfulWords text))).take 10).filter
    (fun x => decide (1 < x.2))).map Prod.fst

/-- Modelled from the spec's words: lowercase, tokenize on word boundaries,
drop stop words and tokens of length at most three, count frequencies,
stable-sort descending by frequency, return the tokens with frequency
greater than one, capped at ten (filter first, then cap). -/
def extractKeyPhrasesSpec (text : String) : List String :=
  (((sortByFreqDesc (countFreq (meaningfulWords text))).filter
    (fun x => decide (1 < x.2))).take 10).map Prod.fst

/-- Complement of the sentence-punctuation class, the regex class [^.!?]. -/
def notPunctC (c : Char) : Bool := !(c == '.' || c == '!' || c == '?')

/-- The class [:\s] of a colon or whitespace. -/
def colonSpaceC (c : Char) : Bool := c == ':' || pyIsSpace c

/-- The class [,\s] of a comma or whitespace. -/
def commaSpaceC (c : Char) : Bool := c == ',' || pyIsSpace c

/-- First generic action pattern: a modal-verb phrase. -/
def actionP1 : RE :=
  seqRE [altRE [strLiti "need to", strLiti "must", strLiti "should", strLiti "will",
      strLiti "going to"],
    plusG (.cls pyIsSpace), .grp 1 (plusG (.cls notPunctC))]

/-- Second generic action pattern: an explicit todo/task/action-item label. -/
def actionP2 : RE :=
  seqRE [altRE [strLiti "todo", strLiti "task", strLiti "action item"],
    plusG (.cls colonSpaceC), .grp 1 (plusG (.cls notPunctC))]

/-- Third generic action pattern: a capitalized clause containing an action
verb (the leading class [A-Z] is case-folded by re.IGNORECASE). -/
def actionP3 : RE :=
  .grp 1 (seqRE [.cls (ciCls Char.isUpper), .rep true (.cls notPunctC),
    altRE [strLiti "do", strLiti "complete", strLiti "finish", strLiti "start",
      strLiti "create", strLiti "build", strLiti "implement"],
    .rep true (.cls notPunctC)])

/-- A generic extracted action item. -/
structure GenericAction where
  text : String
  priority : String
deriving DecidableEq, Repr

/-- First-occurrence deduplication by a key, carrying the set of keys already
seen, as the source's seen-set loops do. -/
def uniqueByAux {α β : Type} [DecidableEq β] (key : α → β) (seen : List β) :
    List α → List α
  | [] => []
  | x :: xs =>
    if key x ∈ seen then uniqueByAux key seen xs
    else x :: uniqueByAux key (key x :: seen) xs

/-- First-occurrence deduplication by a key. -/
def uniqueBy {α β : Type} [DecidableEq β] (key : α → β) (l : List α) : List α :=
  uniqueByAux key [] l

/-- Generic action-item extraction: three patterns in order, captured text
stripped and kept when longer than ten characters, deduplicated by exact
text, first five returned. -/
def extract_action_items (text : String) : List GenericAction :=
  let raw := [actionP1, actionP2, actionP3].flatMap (fun p =>
    ((reFindIter p text).filterMap (fun caps => capGet caps 1)).filterMap (fun g =>
      let t := pyStrip g
      if 10 < t.length then some (GenericAction.mk t "medium") else none))
  (uniqueBy (fun a => a.text) raw).take 5

/-- Month-name alternation of the date patterns. -/
def monthsRE : RE :=
  altRE [strLiti "January", strLiti "February", strLiti "March", strLiti "April",
    strLiti "May", strLiti "June", strLiti "July", strLiti "August",
    strLiti "September", strLiti "October", strLiti "November", strLiti "December"]

/-- Weekday-name alternation of the date patterns. -/
def weekdaysRE : RE :=
  altRE [strLiti "Monday", strLiti "Tuesday", strLiti "Wednesday", strLiti "Thursday",
    strLiti "Friday", strLiti "Saturday", strLiti "Sunday"]

/-- The slash-or-dash separator class of the numeric date pattern. -/
def dateSepC (c : Char) : Bool := c == '/' || c == '-'

/-- Numeric date pattern MM/DD/YYYY-style. -/
def date1RE : RE :=
  seqRE [.wb, digitRE, optG digitRE, .cls dateSepC, digitRE, optG digitRE,
    .cls dateSepC, digitRE, digitRE, optG digitRE, optG digitRE, .wb]

/-- Month DD, YYYY date pattern. -/
def date2RE : RE :=
  seqRE [.wb, monthsRE, plusG (.cls pyIsSpace), digitRE, optG digitRE,
    optG (chrRE ','), plusG (.cls pyIsSpace), digitRE, digitRE, digitRE, digitRE, .wb]

/-- DD Month YYYY date pattern. -/
def date3RE : RE :=
  seqRE [.wb, digitRE, optG digitRE, plusG (.cls pyIsSpace), monthsRE,
    plusG (.cls pyIsSpace), digitRE, digitRE, digitRE, digitRE, .wb]

/-- Weekday-name date pattern. -/
def date4RE : RE := seqRE [.wb, weekdaysRE, .wb]

/-- Date extraction: union of all four pattern scans, deduplicated via set
(modelled by a deterministic deduplication; the claims proved below do not
depend on the set's iteration order). -/
def extract_dates (text : String) : List String :=
  ([date1RE, date2RE, date3RE, date4RE].flatMap (fun p => reFindAll p text)).dedup

/-- A number value as stored by extract_numbers: Python int for integer
matches; decimal matches are kept as their literal text since binary
floating point is not modelled. -/
inductive PyNum where
  | intVal : Nat → PyNum
  | decLit : String → PyNum
deriving DecidableEq, Repr

/-- An extracted number record. -/
structure NumberRec where
  type : String
  value : PyNum
deriving DecidableEq, Repr

/-- Integer pattern of extract_numbers. -/
def intRE : RE := seqRE [.wb, plusG digitRE, .wb]

/-- Decimal pattern of extract_numbers. -/
def decRE : RE := seqRE [.wb, plusG digitRE, chrRE '.', plusG digitRE, .wb]

/-- Python int() on a string of decimal digits. -/
def pyStrToNat (s : String) : Nat :=
  s.data.foldl (fun acc c => acc * 10 + (c.toNat - 48)) 0

/-- Number extraction: first ten integer matches then first ten decimal
matches, scanned independently. -/
def extract_numbers (text : String) : List NumberRec :=
  (((reFindAll intRE text).take 10).map
      (fun v => NumberRec.mk "integer" (PyNum.intVal (pyStrToNat v))))
  ++ (((reFindAll decRE text).take 10).map (fun v => NumberRec.mk "decimal" (PyNum.decLit v)))

/-- Sentences of a text: split on punctuation runs, stripped, empty pieces
dropped. -/
def sentencesOf (text : String) : List String :=
  ((pyReSplit isPunct text).map pyStrip).filter (fun s => !s.isEmpty)

/-- Summary generation: the single sentence, all of up to three sentences,
or first and last sentence, truncated at two hundred characters. -/
def generate_summary (text : String) : String :=
  let sentences := sentencesOf text
  if sentences.isEmpty then ""
  else
    let summary :=
      if sentences.length == 1 then sentences.headD ""
      else if sentences.length ≤ 3 then String.intercalate " " sentences
      else (sentences.headD "") ++ " ... " ++ sentences.getLastD ""
    if 200 < summary.length then summary.take 197 ++ "..." else summary

/-- The record returned by parse_text_to_structured. -/
structure StructuredOutput where
  entities : List Entity
  key_phrases : List String
  action_items : List GenericAction
  dates : List String
  numbers : List NumberRec
  summary : String
  word_count : Nat
  sentence_count : Nat
deriving DecidableEq, Repr

/-- The general-purpose structured view: all primitive extractors applied to
the text, with the whitespace word count and the raw re.split sentence
count. -/
def parse_text_to_structured (text : String) : StructuredOutput :=
  { entities := extract_entities text
    key_phrases := extract_key_phrases text
    action_items := extract_action_items text
    dates := extract_dates text
    numbers := extract_numbers text
    summary := generate_summary text
    word_count := (pySplitWs text).length
    sentence_count := (pyReSplit isPunct text).length }

/-- A meeting action item with enrichment fields. -/
structure ActionItem where
  text : String
  assignee : Option String
  due_date : Option String
  priority : String
  status : String
deriving DecidableEq, Repr

/-- Priority inference from action text: an urgency word set yields high,
a softer word set yields medium, otherwise low. -/
def detect_priority (text : String) : String :=
  let t := pyLower text
  if ["urgent", "asap", "immediately", "critical", "important"].any (fun w => pyIn w t)
  then "high"
  else if ["soon", "priority", "important"].any (fun w => pyIn w t) then "medium"
  else "low"

/-- The name pattern [A-Z][a-z]+ (case-folded wherever re.IGNORECASE is in
force, which is every meeting pattern below). -/
def nameRE : RE := seqRE [.cls (ciCls Char.isUpper), plusG (.cls (ciCls Char.isLower))]

/-- An optionally two-word name, the capture of the assignee groups. -/
def fullNameRE : RE :=
  seqRE [nameRE, optG (seqRE [plusG (.cls pyIsSpace), nameRE])]

/-- First meeting action pattern: name, modal verb, action, due phrase
(three capture groups). -/
def meetP1 : RE :=
  seqRE [.grp 1 fullNameRE, plusG (.cls pyIsSpace),
    altRE [strLiti "will", strLiti "should",
      seqRE [strLiti "need", optG (chriRE 's'), strLiti " to"], strLiti "must"],
    plusG (.cls pyIsSpace), .grp 2 (plusL (.cls notPunctC)),
    altRE [strLiti "by", strLiti "before", strLiti "on", strLiti "due"],
    plusG (.cls pyIsSpace), .grp 3 (plusG (.cls notPunctC))]

/-- Second meeting action pattern: labelled action item with assignee or
owner label (two capture groups). -/
def meetP2 : RE :=
  seqRE [strLiti "action item", plusG (.cls colonSpaceC), .grp 1 (plusL (.cls notPunctC)),
    altRE [strLiti "assignee", strLiti "owner"], plusG (.cls colonSpaceC), .grp 2 nameRE]

/-- Third meeting action pattern: name to action by due phrase (three
capture groups). -/
def meetP3 : RE :=
  seqRE [.grp 1 nameRE, plusG (.cls pyIsSpace), strLiti "to", plusG (.cls pyIsSpace),
    .grp 2 (plusL (.cls notPunctC)),
    altRE [strLiti "by", strLiti "before", strLiti "on"],
    plusG (.cls pyIsSpace), .grp 3 (plusG (.cls notPunctC))]

/-- Fourth meeting action pattern: modal phrase with due phrase (two capture
groups). -/
def meetP4 : RE :=
  seqRE [altRE [strLiti "need to", strLiti "must", strLiti "should", strLiti "will",
      strLiti "going to"],
    plusG (.cls pyIsSpace), .grp 1 (plusL (.cls notPunctC)),
    altRE [strLiti "by", strLiti "before", strLiti "on"],
    plusG (.cls pyIsSpace), .grp 2 (plusG (.cls notPunctC))]

/-- Builds a meeting action item from a three-group match: the assignee is
the first group when it starts with an uppercase letter, the action text is
the second group (kept when its raw length exceeds ten), the due date the
third. -/
def mkMeetItem3 (caps : List (Nat × String)) : Option ActionItem :=
  match capGet caps 1, capGet caps 2, capGet caps 3 with
  | some g1, some g2, some g3 =>
    if 10 < g2.length then
      some { text := pyStrip g2
             assignee := if (g1.data.headD ' ').isUpper then some g1 else none
             due_date := some (pyStrip g3)
             priority := detect_priority g2
             status := "open" }
    else none
  | _, _, _ => none

/-- Builds a meeting action item from a two-group match: no assignee, the
action text is the first group, and the last group becomes the due date
(exactly the source's groups[-1] choice). -/
def mkMeetItem2 (caps : List (Nat × String)) : Option ActionItem :=
  match capGet caps 1, capGet caps 2 with
  | some g1, some g2 =>
    if 10 < g1.length then
      some { text := pyStrip g1
             assignee := none
             due_date := some (pyStrip g2)
             priority := detect_priority g1
             status := "open" }
    else none
  | _, _ => none

/-- Meeting action-item extraction: the four enriched patterns in order,
then the generic extractor's items merged in when their text is not already
present, then first-occurrence deduplication by lowercased text, capped at
ten. -/
def extract_meeting_action_items (text : String) : List ActionItem :=
  let fromPatterns :=
    ((reFindIter meetP1 text).filterMap mkMeetItem3)
    ++ ((reFindIter meetP2 text).filterMap mkMeetItem2)
    ++ ((reFindIter meetP3 text).filterMap mkMeetItem3)
    ++ ((reFindIter meetP4 text).filterMap mkMeetItem2)
  let merged := (extract_action_items text).foldl (fun acc a =>
    if acc.any (fun b => b.text == a.text) then acc
    else acc ++ [{ text := a.text, assignee := none, due_date := none,
                   priority := a.priority, status := "open" }]) fromPatterns
  (uniqueBy (fun a => pyLower a.text) merged).take 10

/-- Decision pattern: decided to. -/
def decP1 : RE := seqRE [strLiti "decided to", plusG (.cls pyIsSpace), .grp 1 (plusG (.cls notPunctC))]

/-- Decision pattern: decision label. -/
def decP2 : RE := seqRE [strLiti "decision", plusG (.cls colonSpaceC), .grp 1 (plusG (.cls notPunctC))]

/-- Decision pattern: agreed to. -/
def decP3 : RE := seqRE [strLiti "agreed to", plusG (.cls pyIsSpace), .grp 1 (plusG (.cls notPunctC))]

/-- Decision pattern: concluded that. -/
def decP4 : RE := seqRE [strLiti "concluded that", plusG (.cls pyIsSpace), .grp 1 (plusG (.cls notPunctC))]

/-- Decision pattern: will ... going forward / from now on. -/
def decP5 : RE :=
  seqRE [strLiti "will", plusG (.cls pyIsSpace), .grp 1 (plusL (.cls notPunctC)),
    altRE [strLiti "going forward", strLiti "from now on"]]

/-- Decision extraction: five patterns, stripped captures longer than ten
characters, deduplicated via set, capped at ten. -/
def extract_decisions (text : String) : List String :=
  ([decP1, decP2, decP3, decP4, decP5].flatMap (fun p =>
    ((reFindIter p text).filterMap (fun caps => capGet caps 1)).filterMap (fun g =>
      let d := pyStrip g
      if 10 < d.length then some d else none))).dedup.take 10

/-- Participant pattern: a name followed by a speech verb. -/
def partP1 : RE :=
  seqRE [.grp 1 fullNameRE, plusG (.cls pyIsSpace),
    altRE [strLiti "said", strLiti "mentioned", strLiti "noted", strLiti "asked",
      strLiti "suggested", strLiti "proposed", strLiti "agreed"]]

/-- Participant pattern: attendees label. -/
def partP2 : RE :=
  seqRE [strLiti "attendee", optG (chriRE 's'), plusG (.cls colonSpaceC),
    .grp 1 (plusG (.cls notPunctC))]

/-- Participant pattern: participants label. -/
def partP3 : RE :=
  seqRE [strLiti "participant", optG (chriRE 's'), plusG (.cls colonSpaceC),
    .grp 1 (plusG (.cls notPunctC))]

/-- Pronoun stoplist of participant extraction. -/
def pronounStop : List String := ["The", "This", "That", "There", "They", "We", "I"]

/-- Participant extraction: three patterns, stripped captures outside the
pronoun stoplist with at most three words, deduplicated via set, capped at
fifteen. -/
def extract_participants (text : String) : List String :=
  ([partP1, partP2, partP3].flatMap (fun p =>
    ((reFindIter p text).filterMap (fun caps => capGet caps 1)).filterMap (fun g =>
      let participant := pyStrip g
      if !(pronounStop.contains participant) && decide ((pySplitWs participant).length ≤ 3)
      then some participant else none))).dedup.take 15

/-- Topic pattern: topic label. -/
def topicP1 : RE := seqRE [strLiti "topic", plusG (.cls colonSpaceC), .grp 1 (plusG (.cls notPunctC))]

/-- Topic pattern: discussed. -/
def topicP2 : RE := seqRE [strLiti "discussed", plusG (.cls pyIsSpace), .grp 1 (plusG (.cls notPunctC))]

/-- Topic pattern: regarding. -/
def topicP3 : RE := seqRE [strLiti "regarding", plusG (.cls pyIsSpace), .grp 1 (plusG (.cls notPunctC))]

/-- Topic pattern: about, stopping at a dot, comma or the word and. -/
def topicP4 : RE :=
  seqRE [strLiti "about", plusG (.cls pyIsSpace), .grp 1 (plusL (.cls notPunctC)),
    altRE [chrRE '.', chrRE ',', strLiti "and"]]

/-- Topic extraction: four patterns filtered to stripped length strictly
between five and fifty, extended with the top five key phrases, deduplicated
via set, capped at ten. -/
def extract_topics (text : String) : List String :=
  (([topicP1, topicP2, topicP3, topicP4].flatMap (fun p =>
    ((reFindIter p text).filterMap (fun caps => capGet caps 1)).filterMap (fun g =>
      let topic := pyStrip g
      if decide (5 < topic.length) && decide (topic.length < 50)
      then some topic else none)))
    ++ (extract_key_phrases text).take 5).dedup.take 10

/-- Next-step pattern: next step label. -/
def nextP1 : RE := seqRE [strLiti "next step", plusG (.cls colonSpaceC), .grp 1 (plusG (.cls notPunctC))]

/-- Next-step pattern: going forward. -/
def nextP2 : RE := seqRE [strLiti "going forward", plusG (.cls commaSpaceC), .grp 1 (plusG (.cls notPunctC))]

/-- Next-step pattern: next. -/
def nextP3 : RE := seqRE [strLiti "next", plusG (.cls commaSpaceC), .grp 1 (plusG (.cls notPunctC))]

/-- Next-step pattern: follow up label. -/
def nextP4 : RE := seqRE [strLiti "follow up", plusG (.cls colonSpaceC), .grp 1 (plusG (.cls notPunctC))]

/-- Next-step extraction: four patterns, stripped captures longer than ten
characters, deduplicated via set, capped at five. -/
def extract_next_steps (text : String) : List String :=
  ([nextP1, nextP2, nextP3, nextP4].flatMap (fun p =>
    ((reFindIter p text).filterMap (fun caps => capGet caps 1)).filterMap (fun g =>
      let step := pyStrip g
      if 10 < step.length then some step else none))).dedup.take 5

/-- Summary-indicator keywords of the meeting summary. -/
def summaryKeywords : List String :=
  ["summary", "conclusion", "main point", "key takeaway", "overall"]

/-- Meeting summary: the first three keyword-bearing sentences if any,
otherwise all of up to three sentences, otherwise first and last sentence. -/
def generate_meeting_summary (text : String) : String :=
  let sentences := sentencesOf text
  if sentences.isEmpty then ""
  else
    let summarySentences :=
      sentences.filter (fun s => summaryKeywords.any (fun k => pyIn k (pyLower s)))
    if !summarySentences.isEmpty then String.intercalate " " (summarySentences.take 3)
    else if sentences.length ≤ 3 then String.intercalate " " sentences
    else (sentences.headD "") ++ " ... " ++ sentences.getLastD ""

/-- Duration estimate from the whitespace word count at one hundred and
fifty words per minute, floored at five minutes. -/
def estimate_meeting_duration (text : String) : String :=
  let word_count := (pySplitWs text).length
  let estimated_minutes := max 5 (word_count / 150)
  if estimated_minutes < 60 then "~" ++ toString estimated_minutes ++ " minutes"
  else "~" ++ toString (estimated_minutes / 60) ++ "h "
    ++ toString (estimated_minutes % 60) ++ "m"

/-- The aggregate meeting-data record. -/
structure MeetingData where
  summary : String
  action_items : List ActionItem
  key_decisions : List String
  participants : List String
  topics : List String
  next_steps : List String
  duration_estimate : String
  entities : List Entity
  dates : List String
deriving DecidableEq, Repr

/-- The rule-based (regex) meeting extraction assembled by the orchestrator's
fallback path. -/
def regexMeetingData (text : String) : MeetingData :=
  { summary := generate_meeting_summary text
    action_items := extract_meeting_action_items text
    key_decisions := extract_decisions text
    participants := extract_participants text
    topics := extract_topics text
    next_steps := extract_next_steps text
    duration_estimate := estimate_meeting_duration text
    entities := extract_entities text
    dates := extract_dates text }

/-- The shape produced by the Bedrock model response after JSON parsing;
absent keys are modelled as none and default-filled by the coercion below,
as the source's dict.get calls do. -/
structure BedrockRaw where
  summary : Option String
  action_items : Option (List ActionItem)
  key_decisions : Option (List String)
  participants : Option (List String)
  topics : Option (List String)
  next_steps : Option (List String)

/-- The meeting-data dict assembled by extract_meeting_data_with_bedrock on
success: model fields default-filled, the duration computed locally, and
entities and dates left empty. -/
def bedrockCoerce (r : BedrockRaw) (text : String) : MeetingData :=
  { summary := r.summary.getD ""
    action_items := r.action_items.getD []
    key_decisions := r.key_decisions.getD []
    participants := r.participants.getD []
    topics := r.topics.getD []
    next_steps := r.next_steps.getD []
    duration_estimate := estimate_meeting_duration text
    entities := []
    dates := [] }

/-- A Python dict holding meeting data: either the empty dict literal that
extract_meeting_data_with_bedrock returns on failure, or a full record. -/
inductive MeetingDict where
  | emptyDict : MeetingDict
  | full : MeetingData → MeetingDict
deriving DecidableEq

/-- extract_meeting_data_with_bedrock: calls the Bedrock extractor (whose
behaviour, success or raised failure, is the function argument), catching
every failure itself and returning the triple of the empty dict, a false
success flag and the error message; on success it returns the coerced data,
true and no error.  It never raises. -/
def extract_meeting_data_with_bedrock (bedrock : String → Except String BedrockRaw)
    (text : String) : MeetingDict × Bool × Option String :=
  match bedrock text with
  | .ok r => (.full (bedrockCoerce r text), true, none)
  | .error e => (.emptyDict, false, some e)

/-- The dynamically shaped return value of parse_meeting_text: the Bedrock
path returns the triple from extract_meeting_data_with_bedrock unchanged,
while the regex path returns the bare meeting-data dict. -/
inductive ParseMeetingResult where
  | triple : MeetingDict → Bool → Option String → ParseMeetingResult
  | single : MeetingDict → ParseMeetingResult
deriving DecidableEq

/-- parse_meeting_text: when use_bedrock holds, it returns whatever
extract_meeting_data_with_bedrock returns (the orchestrator's own fallback
handlers are unreachable, because that function catches all failures
internally and the import always succeeds in the repository); otherwise it
returns the regex-assembled meeting-data dict. -/
def parse_meeting_text (bedrock : String → Except String BedrockRaw)
    (text : String) (use_bedrock : Bool) : ParseMeetingResult :=
  if use_bedrock then
    match extract_meeting_data_with_bedrock bedrock text with
    | (d, used, err) => .triple d used err
  else .single (.full (regexMeetingData text))

/-- The criteria accumulated by the four keyword checks of
generate_acceptance_criteria, in source order; the checks are independent. -/
def triggeredCriteria (action_text : String) : List String :=
  let t := pyLower action_text
  (if pyIn "complete" t then ["Task is completed and verified"] else [])
  ++ (if pyIn "review" t then ["Review is completed and feedback provided"] else [])
  ++ (if pyIn "implement" t || pyIn "build" t then ["Implementation is complete and tested"] else [])
  ++ (if pyIn "create" t then ["Deliverable is created and approved"] else [])

/-- Acceptance-criteria generation: the keyword-triggered criteria, or the
two default criteria when no keyword fires. -/
def generate_acceptance_criteria (action_text : String) : List String :=
  let criteria := triggeredCriteria action_text
  if criteria.isEmpty then
    ["Action item is completed as specified", "Completion is verified and documented"]
  else criteria

/-- Whether any of the acceptance-criteria keywords occurs case-insensitively
in the action text. -/
def acceptanceKeywordHit (action_text : String) : Bool :=
  pyIn "complete" (pyLower action_text) || pyIn "review" (pyLower action_text)
  || pyIn "implement" (pyLower action_text) || pyIn "build" (pyLower action_text)
  || pyIn "create" (pyLower action_text)

/-- A requirement record of the requirements mapper. -/
structure Requirement where
  id : String
  title : String
  description : String
  type : String
  priority : String
  status : String
  assignee : Option String
  due_date : Option String
  acceptance_criteria : List String
  source : String
  related_decisions : List String
deriving DecidableEq, Repr

/-- Python enumerate with a start index. -/
def pyEnum {α : Type} : Nat → List α → List (Nat × α)
  | _, [] => []
  | n, x :: xs => (n, x) :: pyEnum (n + 1) xs

/-- The decisions linked to an action: those one of whose first three
lowercased words occurs in the lowercased action text. -/
def relatedDecisions (actionText : String) (decisions : List String) : List String :=
  decisions.filter (fun d =>
    ((pySplitWs (pyLower d)).take 3).any (fun w => pyIn w (pyLower actionText)))

/-- The requirement built from one action item at one enumeration index. -/
def actionRequirement (decisions : List String) (idx : Nat) (a : ActionItem) : Requirement :=
  { id := reqId idx
    title := a.text.take 100 ++ (if 100 < a.text.length then "..." else "")
    description := a.text
    type := "functional"
    priority := a.priority
    status := "draft"
    assignee := a.assignee
    due_date := a.due_date
    acceptance_criteria := generate_acceptance_criteria a.text
    source := "meeting_action_item"
    related_decisions := relatedDecisions a.text decisions }

/-- The requirement built from one substantial decision at one enumeration
index. -/
def decisionRequirement (idx : Nat) (decision : String) : Requirement :=
  { id := reqId idx
    title := "Decision: " ++ decision.take 80
    description := decision
    type := "non-functional"
    priority := "medium"
    status := "draft"
    assignee := none
    due_date := none
    acceptance_criteria := ["Decision documented and communicated"]
    source := "meeting_decision"
    related_decisions := [decision] }

/-- The requirements mapper: action items enumerated from one, then the
decisions enumerated from one past the action-requirement count, keeping
only decisions longer than twenty characters (the enumeration index advances
over skipped decisions too, exactly as Python's enumerate does). -/
def map_to_requirements_format (md : MeetingData) : List Requirement :=
  let actionReqs :=
    (pyEnum 1 md.action_items).map (fun p => actionRequirement md.key_decisions p.1 p.2)
  actionReqs ++
    (pyEnum (actionReqs.length + 1) md.key_decisions).filterMap (fun p =>
      if 20 < p.2.length then some (decisionRequirement p.1 p.2) else none)

/-- Modelled from the spec's words: the number of non-trivial (non-empty
after trimming) segments produced by splitting the text on runs of the
sentence delimiters. -/
def sentenceCountSpec (text : String) : Nat :=
  (((pyReSplit isPunct text).map pyStrip).filter (fun s => !s.isEmpty)).length

theorem splitSegs_dd (p : Char → Bool) (c c2 : Char) (cs : List Char)
    (h1 : p c) (h2 : p c2) :
    splitSegs p (c :: c2 :: cs) = splitSegs p (c2 :: cs) := by
  conv_lhs => rw [splitSegs]
  simp [h1, h2]

theorem splitSegs_dn (p : Char → Bool) (c c2 : Char) (cs : List Char)
    (h1 : p c) (h2 : ¬ p c2) :
    splitSegs p (c :: c2 :: cs) = [] :: splitSegs p (c2 :: cs) := by
  conv_lhs => rw [splitSegs]
  simp [h1, h2]

theorem splitSegs_dnil (p : Char → Bool) (c : Char) (h1 : p c) :
    splitSegs p [c] = [[], []] := by
  rw [splitSegs]
  simp [h1]

theorem punctRunCount_dd (p : Char → Bool) (c c2 : Char) (cs : List Char)
    (h1 : p c) (h2 : p c2) :
    punctRunCount p (c :: c2 :: cs) = punctRunCount p (c2 :: cs) := by
  conv_lhs => rw [punctRunCount]
  simp [h1, h2]

theorem punctRunCount_dn (p : Char → Bool) (c c2 : Char) (cs : List Char)
    (h1 : p c) (h2 : ¬ p c2) :
    punctRunCount p (c :: c2 :: cs) = 1 + punctRunCount p (c2 :: cs) := by
  conv_lhs => rw [punctRunCount]
  simp [h1, h2]

theorem punctRunCount_dnil (p : Char → Bool) (c : Char) (h1 : p c) :
    punctRunCount p [c] = 1 := by
  rw [punctRunCount]
  simp [h1]

theorem punctRunCount_n (p : Char → Bool) (c : Char) (cs : List Char) (h1 : ¬ p c) :
    punctRunCount p (c :: cs) = punctRunCount p cs := by
  rw [punctRunCount.eq_def]
  simp [h1]

theorem splitSegs_ne_nil (p : Char → Bool) : ∀ l : List Char, splitSegs p l ≠ [] := by
  intro l
  induction l with
  | nil => simp [splitSegs]
  | cons c cs ih =>
    by_cases hp : p c
    · cases cs with
      | nil => rw [splitSegs_dnil p c hp]; simp
      | cons c2 cs2 =>
        by_cases hp2 : p c2
        · rw [splitSegs_dd p c c2 cs2 hp hp2]; exact ih
        · rw [splitSegs_dn p c c2 cs2 hp hp2]; simp
    · rw [splitSegs.eq_def]
      simp only [hp, Bool.false_eq_true, if_false]
      cases h : splitSegs p cs with
      | nil => exact absurd h ih
      | cons s rest => simp

theorem length_splitSegs (p : Char → Bool) :
    ∀ l : List Char, (splitSegs p l).length = punctRunCount p l + 1 := by
  intro l
  induction l with
  | nil => rfl
  | cons c cs ih =>
    by_cases hp : p c
    · cases cs with
      | nil => rw [splitSegs_dnil p c hp, punctRunCount_dnil p c hp]; rfl
      | cons c2 cs2 =>
        by_cases hp2 : p c2
        · rw [splitSegs_dd p c c2 cs2 hp hp2, punctRunCount_dd p c c2 cs2 hp hp2]
          exact ih
        · rw [splitSegs_dn p c c2 cs2 hp hp2, punctRunCount_dn p c c2 cs2 hp hp2]
          simp only [List.length_cons, ih]
          omega
    · rw [splitSegs.eq_def, punctRunCount_n p c cs hp]
      simp only [hp, Bool.false_eq_true, if_false]
      cases h : splitSegs p cs with
      | nil => exact absurd h (splitSegs_ne_nil p cs)
      | cons s rest => rw [h] at ih; simpa using ih

theorem uniqueByAux_map_key {α β : Type} [DecidableEq β] (key : α → β) :
    ∀ (l : List α) (seen : List β),
      ((uniqueByAux key seen l).map key).Nodup
      ∧ ∀ b ∈ (uniqueByAux key seen l).map key, b ∉ seen := by
  intro l
  induction l with
  | nil => intro seen; simp [uniqueByAux]
  | cons x xs ih =>
    intro seen
    by_cases h : key x ∈ seen
    · simpa [uniqueByAux, h] using ih seen
    · have ih' := ih (key x :: seen)
      refine ⟨?_, ?_⟩
      · simp only [uniqueByAux, if_neg h, List.map_cons, List.nodup_cons]
        exact ⟨fun hmem => (ih'.2 _ hmem) (List.mem_cons_self _ _), ih'.1⟩
      · intro b hb
        simp only [uniqueByAux, if_neg h, List.map_cons, List.mem_cons] at hb
        rcases hb with rfl | hb
        · exact h
        · exact fun hseen => (ih'.2 b hb) (List.mem_cons_of_mem _ hseen)

theorem uniqueBy_map_key_nodup {α β : Type} [DecidableEq β] (key : α → β) (l : List α) :
    ((uniqueBy key l).map key).Nodup :=
  (uniqueByAux_map_key key l []).1

theorem take_map_key_nodup {α β : Type} (key : α → β) (l : List α) (n : Nat)
    (h : (l.map key).Nodup) : ((l.take n).map key).Nodup :=
  ((List.take_sublist n l).map key).nodup h

theorem take_dedup_nodup {α : Type} [DecidableEq α] (l : List α) (n : Nat) :
    (l.dedup.take n).Nodup :=
  (List.take_sublist n l.dedup).nodup (List.nodup_dedup l)

theorem take_filter_comm_sorted :
    ∀ (l : List (String × Nat)) (n : Nat), l.Sorted freqGE →
      (l.take n).filter (fun x => decide (1 < x.2))
        = (l.filter (fun x => decide (1 < x.2))).take n := by
  intro l
  induction l with
  | nil => intro n _; simp
  | cons x xs ih =>
    intro n hs
    rcases List.sorted_cons.mp hs with ⟨hrel, htl⟩
    cases n with
    | zero => simp
    | succ n =>
      by_cases hx : 1 < x.2
      · simp only [List.take_succ_cons, List.filter_cons]
        rw [if_pos (by simpa using hx), if_pos (by simpa using hx)]
        simp only [List.take_succ_cons]
        rw [ih n htl]
      · have hnone : ∀ y ∈ xs, ¬ (1 < y.2) := by
          intro y hy
          have := hrel y hy
          simp only [freqGE] at this
          omega
        have h1 : xs.filter (fun y => decide (1 < y.2)) = [] :=
          List.filter_eq_nil_iff.mpr (fun y hy => by simpa using hnone y hy)
        have h2 : (xs.take n).filter (fun y => decide (1 < y.2)) = [] :=
          List.filter_eq_nil_iff.mpr
            (fun y hy => by simpa using hnone y (List.mem_of_mem_take hy))
        simp only [List.take_succ_cons, List.filter_cons]
        rw [if_neg (by simpa using hx), if_neg (by simpa using hx), h1, h2]
        simp

theorem pyEnum_length {α : Type} : ∀ (l : List α) (n : Nat), (pyEnum n l).length = l.length := by
  intro l
  induction l with
  | nil => intro n; rfl
  | cons x xs ih => intro n; simp [pyEnum, ih]

theorem pyEnum_map_fst {α : Type} :
    ∀ (l : List α) (n : Nat), (pyEnum n l).map Prod.fst = List.range' n l.length := by
  intro l
  induction l with
  | nil => intro n; rfl
  | cons x xs ih => intro n; simp [pyEnum, List.range'_succ, ih]

theorem filterMap_if {α β : Type} (q : α → Prop) [DecidablePred q] (g : α → β) :
    ∀ l : List α,
      l.filterMap (fun a => if q a then some (g a) else none)
        = (l.filter (fun a => decide (q a))).map g := by
  intro l
  induction l with
  | nil => rfl
  | cons x xs ih => by_cases h : q x <;> simp [List.filterMap_cons, List.filter_cons, h, ih]

/-- Claim C3, counterexample: the claim says sentence_count counts the non-trivial
segments of the split, but on the input Hi followed by a period the parser
reports two sentences (re.split keeps the trailing empty segment) while only
one segment is non-empty after trimming. -/
theorem claim3_counterexample :
    (parse_text_to_structured "Hi.").sentence_count = 2
    ∧ sentenceCountSpec "Hi." = 1 := by
  exact ⟨rfl, rfl⟩

/-- Claim C3, amended: word_count is the whitespace-token count of the text, and
sentence_count is the number of segments produced by re.split on runs of
sentence delimiters including empty segments, that is one more than the
number of delimiter runs; the non-trivial segment count never exceeds it. -/
theorem claim3_amended (text : String) :
    (parse_text_to_structured text).word_count = (pySplitWs text).length
    ∧ (parse_text_to_structured text).sentence_count
        = punctRunCount isPunct text.data + 1
    ∧ sentenceCountSpec text ≤ (parse_text_to_structured text).sentence_count := by
  refine ⟨rfl, ?_, ?_⟩
  · show (pyReSplit isPunct text).length = _
    rw [pyReSplit, List.length_map]
    exact length_splitSegs isPunct text.data
  · show (((pyReSplit isPunct text).map pyStrip).filter _).length ≤ (pyReSplit isPunct text).length
    calc (((pyReSplit isPunct text).map pyStrip).filter (fun s => !s.isEmpty)).length
        ≤ ((pyReSplit isPunct text).map pyStrip).length := List.length_filter_le _ _
      _ = (pyReSplit isPunct text).length := List.length_map _ _

/-- Claim C4: on the empty input every extractor used by parse_text_to_structured
yields its empty or default output: all list fields are empty, the summary
is the empty string and the word count is zero, and each primitive extractor
applied to the empty string returns an empty list or empty string. -/
theorem claim4_empty_input :
    (parse_text_to_structured "").entities = []
    ∧ (parse_text_to_structured "").key_phrases = []
    ∧ (parse_text_to_structured "").action_items = []
    ∧ (parse_text_to_structured "").dates = []
    ∧ (parse_text_to_structured "").numbers = []
    ∧ (parse_text_to_structured "").summary = ""
    ∧ (parse_text_to_structured "").word_count = 0
    ∧ extract_entities "" = []
    ∧ extract_key_phrases "" = []
    ∧ extract_action_items "" = []
    ∧ extract_dates "" = []
    ∧ extract_numbers "" = []
    ∧ generate_summary "" = "" := by
  exact ⟨rfl, rfl, rfl, rfl, rfl, rfl, rfl, rfl, rfl, rfl, rfl, rfl, rfl⟩

/-- Claim C7: every extractor respects its cap: at most ten meeting action items,
five generic action items, ten decisions, fifteen participants, ten topics
and five next steps, for every input text. -/
theorem claim7_caps (text : String) :
    (extract_meeting_action_items text).length ≤ 10
    ∧ (extract_action_items text).length ≤ 5
    ∧ (extract_decisions text).length ≤ 10
    ∧ (extract_participants text).length ≤ 15
    ∧ (extract_topics text).length ≤ 10
    ∧ (extract_next_steps text).length ≤ 5 := by
  refine ⟨?_, ?_, ?_, ?_, ?_, ?_⟩ <;>
    simp only [extract_meeting_action_items, extract_action_items, extract_decisions,
      extract_participants, extract_topics, extract_next_steps] <;>
    exact List.length_take_le _ _

/-- Claim C9: the duration estimate is the formatted value of the maximum of five
and the whitespace word count divided by one hundred and fifty with
truncation, as minutes below sixty and as hours and minutes otherwise; in
particular every text of fewer than 750 words is estimated at five
minutes. -/
theorem claim9_duration (text : String) :
    estimate_meeting_duration text
      = (if max 5 ((pySplitWs text).length / 150) < 60
         then "~" ++ toString (max 5 ((pySplitWs text).length / 150)) ++ " minutes"
         else "~" ++ toString ((max 5 ((pySplitWs text).length / 150)) / 60) ++ "h "
           ++ toString ((max 5 ((pySplitWs text).length / 150)) % 60) ++ "m")
    ∧ ((pySplitWs text).length < 750 → estimate_meeting_duration text = "~5 minutes") := by
  constructor
  · rfl
  · intro h
    have hdiv : (pySplitWs text).length / 150 < 5 :=
      (Nat.div_lt_iff_lt_mul (by norm_num)).mpr (by omega)
    have hmax : max 5 ((pySplitWs text).length / 150) = 5 :=
      Nat.max_eq_left (Nat.le_of_lt hdiv)
    show (if max 5 ((pySplitWs text).length / 150) < 60 then _ else _) = _
    rw [hmax]
    rfl

/-- Witness for C9 at the empty text. -/
theorem claim9_duration_witness :
    (pySplitWs "").length < 750 ∧ estimate_meeting_duration "" = "~5 minutes" :=
  ⟨by decide, (claim9_duration "").2 (by decide)⟩

/-- Claim C6: for every input text no two extracted elements agree on their
deduplication key: lowercased text for meeting action items, exact text for
generic action items, and exact string equality for decisions, participants,
topics and next steps. -/
theorem claim6_dedup (text : String) :
    ((extract_meeting_action_items text).map (fun a => pyLower a.text)).Nodup
    ∧ ((extract_action_items text).map (fun a => a.text)).Nodup
    ∧ (extract_decisions text).Nodup
    ∧ (extract_participants text).Nodup
    ∧ (extract_topics text).Nodup
    ∧ (extract_next_steps text).Nodup := by
  refine ⟨?_, ?_, ?_, ?_, ?_, ?_⟩
  · simp only [extract_meeting_action_items]
    exact take_map_key_nodup _ _ 10 (uniqueBy_map_key_nodup _ _)
  · simp only [extract_action_items]
    exact take_map_key_nodup _ _ 5 (uniqueBy_map_key_nodup _ _)
  · simp only [extract_decisions]
    exact take_dedup_nodup _ 10
  · simp only [extract_participants]
    exact take_dedup_nodup _ 15
  · simp only [extract_topics]
    exact take_dedup_nodup _ 10
  · simp only [extract_next_steps]
    exact take_dedup_nodup _ 5

/-- Claim C8: the key-phrase extractor equals the reference definition that
lowercases, tokenizes on word boundaries, drops stop words and short tokens,
counts frequencies, stable-sorts descending by frequency and returns the
tokens of frequency above one capped at ten: on the descending-sorted list,
truncating before filtering (the code) and filtering before truncating (the
reference) coincide. -/
theorem claim8_key_phrases (text : String) :
    extract_key_phrases text = extractKeyPhrasesSpec text := by
  unfold extract_key_phrases extractKeyPhrasesSpec
  have hs : (sortByFreqDesc (countFreq (meaningfulWords text))).Sorted freqGE :=
    List.sorted_insertionSort freqGE (countFreq (meaningfulWords text))
  rw [take_filter_comm_sorted _ 10 hs]

/-- Claim C5: exactly the decisions longer than twenty characters produce a
requirement, of non-functional type, medium priority, meeting_decision
source, a title of Decision-colon plus the first eighty characters, the
single documented-and-communicated acceptance criterion and the decision
itself as related decision; and a meeting-data record with one action item
and one decision of length ten maps to exactly one requirement. -/
theorem claim5_decision_requirements :
    (∀ md : MeetingData,
      (map_to_requirements_format md).filter (fun r => r.source == "meeting_decision")
        = ((pyEnum (md.action_items.length + 1) md.key_decisions).filter
            (fun p => decide (20 < p.2.length))).map
          (fun p => decisionRequirement p.1 p.2))
    ∧ (∀ (i : Nat) (d : String),
        (decisionRequirement i d).type = "non-functional"
        ∧ (decisionRequirement i d).priority = "medium"
        ∧ (decisionRequirement i d).source = "meeting_decision"
        ∧ (decisionRequirement i d).title = "Decision: " ++ d.take 80
        ∧ (decisionRequirement i d).acceptance_criteria
            = ["Decision documented and communicated"]
        ∧ (decisionRequirement i d).related_decisions = [d])
    ∧ (map_to_requirements_format
        { summary := "", action_items := [⟨"Prepare the slides", none, none, "medium", "open"⟩],
          key_decisions := ["use Python"], participants := [], topics := [],
          next_steps := [], duration_estimate := "", entities := [], dates := [] }).length
      = 1 := by
  refine ⟨?_, fun i d => ⟨rfl, rfl, rfl, rfl, rfl, rfl⟩, by decide⟩
  intro md
  simp only [map_to_requirements_format, List.filter_append]
  rw [List.length_map, pyEnum_length]
  rw [filterMap_if (fun p : Nat × String => 20 < p.2.length)
    (fun p => decisionRequirement p.1 p.2)]
  have h1 : ((pyEnum 1 md.action_items).map
      (fun p => actionRequirement md.key_decisions p.1 p.2)).filter
        (fun r => r.source == "meeting_decision") = [] := by
    apply List.filter_eq_nil_iff.mpr
    intro r hr
    obtain ⟨p, _, rfl⟩ := List.mem_map.1 hr
    simp [actionRequirement]
  have h2 : (((pyEnum (md.action_items.length + 1) md.key_decisions).filter
      (fun p => decide (20 < p.2.length))).map
        (fun p => decisionRequirement p.1 p.2)).filter
        (fun r => r.source == "meeting_decision")
      = ((pyEnum (md.action_items.length + 1) md.key_decisions).filter
          (fun p => decide (20 < p.2.length))).map
        (fun p => decisionRequirement p.1 p.2) := by
    apply List.filter_eq_self.mpr
    intro r hr
    obtain ⟨p, _, rfl⟩ := List.mem_map.1 hr
    simp [decisionRequirement]
  rw [h1, h2, List.nil_append]

/-- Claim C2, code behaviour at the claimed contract: when the Bedrock extractor
always fails, the use_bedrock call returns the triple of the empty dict, a
false flag and the error, while the plain call returns the bare regex
meeting-data dict; the two outputs are different shapes and the failing
Bedrock path never contains the regex fallback data, contradicting the
claimed fallback law (the claim matches the caller in app.py, which unpacks
a triple from both paths). -/
theorem claim2_code_behavior (text msg : String) :
    parse_meeting_text (fun _ => .error msg) text true
      = .triple .emptyDict false (some msg)
    ∧ parse_meeting_text (fun _ => .error msg) text false
      = .single (.full (regexMeetingData text))
    ∧ parse_meeting_text (fun _ => .error msg) text true
      ≠ .single (.full (regexMeetingData text))
    ∧ ∀ e : Option String,
        parse_meeting_text (fun _ => .error msg) text true
          ≠ .triple (.full (regexMeetingData text)) false e := by
  refine ⟨rfl, rfl, ?_, ?_⟩
  · intro h
    rw [show parse_meeting_text (fun _ => .error msg) text true
        = .triple .emptyDict false (some msg) from rfl] at h
    exact ParseMeetingResult.noConfusion h
  · intro e h
    rw [show parse_meeting_text (fun _ => .error msg) text true
        = .triple .emptyDict false (some msg) from rfl] at h
    have := (ParseMeetingResult.triple.injEq _ _ _ _ _ _).mp h
    exact MeetingDict.noConfusion this.1

/-- Concrete meeting data with a single substantial decision, used to apply
the acceptance-criteria theorem at a concrete requirement. -/
def mdOneDecision : MeetingData :=
  { summary := "", action_items := [],
    key_decisions := ["adopt the new release process for the team"],
    participants := [], topics := [], next_steps := [], duration_estimate := "",
    entities := [], dates := [] }

/-- Claim C10: acceptance-criteria generation always returns between one and four
criteria: the keyword-triggered list when one of the keywords complete,
review, implement, build or create occurs case-insensitively, and exactly
the two default criteria otherwise; consequently every requirement produced
by the mapper has at least one acceptance criterion. -/
theorem claim10_acceptance_criteria :
    (∀ s : String,
        1 ≤ (generate_acceptance_criteria s).length
      ∧ (generate_acceptance_criteria s).length ≤ 4
      ∧ (acceptanceKeywordHit s = true →
          generate_acceptance_criteria s = triggeredCriteria s ∧ triggeredCriteria s ≠ [])
      ∧ (acceptanceKeywordHit s = false →
          generate_acceptance_criteria s
            = ["Action item is completed as specified",
               "Completion is verified and documented"]))
    ∧ ∀ md : MeetingData, ∀ r ∈ map_to_requirements_format md,
        1 ≤ r.acceptance_criteria.length := by
  have base : ∀ s : String,
      1 ≤ (generate_acceptance_criteria s).length
      ∧ (generate_acceptance_criteria s).length ≤ 4
      ∧ (acceptanceKeywordHit s = true →
          generate_acceptance_criteria s = triggeredCriteria s ∧ triggeredCriteria s ≠ [])
      ∧ (acceptanceKeywordHit s = false →
          generate_acceptance_criteria s
            = ["Action item is completed as specified",
               "Completion is verified and documented"]) := by
    intro s
    cases h1 : pyIn "complete" (pyLower s) <;>
      cases h2 : pyIn "review" (pyLower s) <;>
      cases h3 : pyIn "implement" (pyLower s) <;>
      cases h4 : pyIn "build" (pyLower s) <;>
      cases h5 : pyIn "create" (pyLower s) <;>
      simp [generate_acceptance_criteria, triggeredCriteria, acceptanceKeywordHit,
        h1, h2, h3, h4, h5]
  refine ⟨base, ?_⟩
  intro md r hr
  simp only [map_to_requirements_format, List.mem_append] at hr
  rcases hr with hr | hr
  · obtain ⟨p, _, rfl⟩ := List.mem_map.1 hr
    exact (base p.2.text).1
  · obtain ⟨p, _, hp⟩ := List.mem_filterMap.1 hr
    by_cases hc : 20 < p.2.length
    · rw [if_pos hc] at hp
      cases hp
      simp [decisionRequirement]
    · rw [if_neg hc] at hp
      exact Option.noConfusion hp

/-- Witness for C10 at a keyword-bearing text, a keyword-free text, and a
concrete requirement of the mapper. -/
theorem claim10_acceptance_criteria_witness :
    acceptanceKeywordHit "Review the budget" = true
    ∧ generate_acceptance_criteria "Review the budget" = triggeredCriteria "Review the budget"
    ∧ acceptanceKeywordHit "Send the agenda" = false
    ∧ generate_acceptance_criteria "Send the agenda"
        = ["Action item is completed as specified",
           "Completion is verified and documented"]
    ∧ 1 ≤ (decisionRequirement 1
        "adopt the new release process for the team").acceptance_criteria.length :=
  ⟨by decide,
   ((claim10_acceptance_criteria.1 "Review the budget").2.2.1 (by decide)).1,
   by decide,
   (claim10_acceptance_criteria.1 "Send the agenda").2.2.2 (by decide),
   claim10_acceptance_criteria.2 mdOneDecision
     (decisionRequirement 1 "adopt the new release process for the team")
     (by decide)⟩

/-- Concrete meeting data exhibiting the identifier gap: one action item,
then a decision of at most twenty characters followed by a substantial
one. -/
def mdGap : MeetingData :=
  { summary := "",
    action_items := [⟨"Prepare the slides", none, none, "medium", "open"⟩],
    key_decisions := ["use Python", "document the new process in the shared wiki"],
    participants := [], topics := [], next_steps := [], duration_estimate := "",
    entities := [], dates := [] }

/-- Claim C1, counterexample: with one action item and a skipped short decision
before a substantial one, the mapper emits identifiers REQ-001 and REQ-003;
the skipped decision consumes an enumeration index, so the next substantial
decision does not get the next consecutive number REQ-002 as claimed. -/
theorem claim1_counterexample :
    (map_to_requirements_format mdGap).map Requirement.id = ["REQ-001", "REQ-003"]
    ∧ (map_to_requirements_format mdGap).map Requirement.id ≠ ["REQ-001", "REQ-002"] := by
  constructor
  · rfl
  · intro h
    rw [show (map_to_requirements_format mdGap).map Requirement.id
        = ["REQ-001", "REQ-003"] from rfl] at h
    simp at h

theorem mem_pyEnum_fst {α : Type} :
    ∀ (l : List α) (n : Nat) (p : Nat × α), p ∈ pyEnum n l → n ≤ p.1 ∧ p.1 < n + l.length := by
  intro l
  induction l with
  | nil => intro n p hp; simp [pyEnum] at hp
  | cons x xs ih =>
    intro n p hp
    simp only [pyEnum, List.mem_cons] at hp
    rcases hp with rfl | hp
    · simp
    · have := ih (n + 1) p hp
      simp only [List.length_cons]
      omega

/-- Claim C1, amended: the requirement identifiers are exactly reqId of the
enumeration indices, in order: the action items receive REQ-001 up to
REQ-N consecutively, and each decision longer than twenty characters at
zero-based position j among the decisions receives reqId of N plus one plus
j, so a skipped short decision still consumes its enumeration index and
leaves a gap before the next substantial decision; the identifiers are
unique (all distinct), zero-padded to three digits by reqId, and start at
REQ-001 whenever an action item exists. -/
theorem claim1_amended (md : MeetingData) :
    (map_to_requirements_format md).map Requirement.id
      = ((List.range' 1 md.action_items.length).map reqId)
        ++ (((pyEnum (md.action_items.length + 1) md.key_decisions).filter
              (fun p => decide (20 < p.2.length))).map (fun p => reqId p.1))
    ∧ ((map_to_requirements_format md).map Requirement.id).Nodup := by
  have hids : (map_to_requirements_format md).map Requirement.id
      = ((List.range' 1 md.action_items.length).map reqId)
        ++ (((pyEnum (md.action_items.length + 1) md.key_decisions).filter
              (fun p => decide (20 < p.2.length))).map (fun p => reqId p.1)) := by
    simp only [map_to_requirements_format, List.map_append, List.map_map,
      List.length_map, pyEnum_length]
    rw [filterMap_if (fun p : Nat × String => 20 < p.2.length)
      (fun p => decisionRequirement p.1 p.2), List.map_map]
    congr 1
    · rw [show (Requirement.id ∘ fun p : Nat × ActionItem =>
          actionRequirement md.key_decisions p.1 p.2) = (reqId ∘ Prod.fst) from rfl]
      rw [← List.map_map, pyEnum_map_fst]
  refine ⟨hids, ?_⟩
  rw [hids]
  have hA : ((List.range' 1 md.action_items.length).map reqId).Nodup := by
    apply List.Nodup.map reqId_injective
    exact List.nodup_range' _ _
  have hsub : ((pyEnum (md.action_items.length + 1) md.key_decisions).filter
      (fun p => decide (20 < p.2.length))).Sublist
        (pyEnum (md.action_items.length + 1) md.key_decisions) :=
    List.filter_sublist _
  have hBidx : (((pyEnum (md.action_items.length + 1) md.key_decisions).filter
      (fun p => decide (20 < p.2.length))).map Prod.fst).Nodup := by
    have : (((pyEnum (md.action_items.length + 1) md.key_decisions).filter
        (fun p => decide (20 < p.2.length))).map Prod.fst).Sublist
          ((pyEnum (md.action_items.length + 1) md.key_decisions).map Prod.fst) :=
      hsub.map Prod.fst
    rw [pyEnum_map_fst] at this
    exact this.nodup (List.nodup_range' _ _)
  have hB : (((pyEnum (md.action_items.length + 1) md.key_decisions).filter
      (fun p => decide (20 < p.2.length))).map (fun p => reqId p.1)).Nodup := by
    rw [show (fun p : Nat × String => reqId p.1) = reqId ∘ Prod.fst from rfl,
      ← List.map_map]
    exact List.Nodup.map reqId_injective hBidx
  refine hA.append hB ?_
  intro a haA haB
  obtain ⟨i, hi, rfl⟩ := List.mem_map.1 haA
  obtain ⟨p, hp, hpe⟩ := List.mem_map.1 haB
  have hij : p.1 = i := congrArg id (reqId_injective hpe)
  have hi2 : i < 1 + md.action_items.length := by
    have := List.mem_range'_1.mp hi
    omega
  have hp2 : md.action_items.length + 1 ≤ p.1 :=
    (mem_pyEnum_fst md.key_decisions (md.action_items.length + 1) p
      (hsub.subset hp)).1
  omega

end MeetingAnalysis
